import Mathlib

/-!
Shallow embedding of the image-downscaling page of HanaFusaLLC/filesizedown
(src/unnamed/part_000, with src/src/app/page.tsx as an earlier variant of the
same resize logic).

The page offers five width-scale options and three file-size-scale options,
resamples the loaded bitmap at the product of the chosen factors, re-encodes
to PNG or JPEG, estimates the output byte size from the base64 payload length,
and derives download filenames from the original name stem and the variant id.

Modelling decisions:
* JavaScript numbers are modelled as real numbers; `Math.round` is Mathlib's
  `round` (round half up, `round x = ⌊x + 1/2⌋`, matching `Math.round` on the
  nonnegative values that occur here).
* The two option tables are finite, so their `value` fields are modelled by
  enumerations `WidthScale` and `FileSizeScale` with a `value : ℝ` projection;
  the source compares and sorts selections by their numeric `value`, which is
  injective on the options, so list operations are carried out on the
  enumeration (with bridging lemmas relating the `rank` order used for sorting
  to the numeric order of the `value`s).
* `canvas.toDataURL` is opaque to the page; it is modelled by an `Encoder`
  giving the byte count of the binary payload produced for given dimensions,
  MIME type and quality.  A padded base64 rendering of an `n`-byte payload has
  length `4 * ⌈n/3⌉`, which `b64EncLen` computes.
* The asynchronous FileReader/Image callbacks of `handleFileChange` always run
  to completion in sequence; the function is modelled as the completed state
  transition, together with the flag of whether the rejection alert fired.
-/

namespace FileSizeDown

/-- The `WIDTH_SCALE_OPTIONS` table (values 1.0, 0.9, 0.8, 0.7, 0.5). -/
inductive WidthScale
  | w100
  | w90
  | w80
  | w70
  | w50
  deriving DecidableEq, Fintype

/-- The `value` field of a `WIDTH_SCALE_OPTIONS` entry. -/
noncomputable def WidthScale.value : WidthScale → ℝ
  | .w100 => 1.0
  | .w90 => 0.9
  | .w80 => 0.8
  | .w70 => 0.7
  | .w50 => 0.5

/-- The `label` field of a `WIDTH_SCALE_OPTIONS` entry. -/
def WidthScale.label : WidthScale → String
  | .w100 => "100%"
  | .w90 => "90%"
  | .w80 => "80%"
  | .w70 => "70%"
  | .w50 => "50%"

/-- The `FILE_SIZE_OPTIONS` table (values 1/√2, 1/2, 1/√8). -/
inductive FileSizeScale
  | half
  | quarter
  | eighth
  deriving DecidableEq, Fintype

/-- The `value` field of a `FILE_SIZE_OPTIONS` entry. -/
noncomputable def FileSizeScale.value : FileSizeScale → ℝ
  | .half => 1 / Real.sqrt 2
  | .quarter => 1 / 2
  | .eighth => 1 / Real.sqrt 8

/-- The `label` field of a `FILE_SIZE_OPTIONS` entry. -/
def FileSizeScale.label : FileSizeScale → String
  | .half => "1/2"
  | .quarter => "1/4"
  | .eighth => "1/8"

/-- The third field of a `FILE_SIZE_OPTIONS` entry (the hyphenated token
used in variant ids and filenames). -/
def FileSizeScale.ratioTag : FileSizeScale → String
  | .half => "1-2"
  | .quarter => "1-4"
  | .eighth => "1-8"

/-- The list of all `FILE_SIZE_OPTIONS`, in source order. -/
def FILE_SIZE_OPTIONS : List FileSizeScale :=
  [.half, .quarter, .eighth]

/-- Position of an option in `FILE_SIZE_OPTIONS`; since the table is listed in
strictly descending numeric `value` order, `rank` ascending is `value`
descending (proved below). -/
def FileSizeScale.rank : FileSizeScale → ℕ
  | .half => 0
  | .quarter => 1
  | .eighth => 2

/-- The order in which the source's descending numeric sort
`(a, b) => b - a` arranges two options (proved equivalent to the numeric
order of the `value`s in `fsLE_iff_value_le`). -/
def fsLE (a b : FileSizeScale) : Prop := a.rank ≤ b.rank

instance : DecidableRel fsLE := fun a b =>
  inferInstanceAs (Decidable (a.rank ≤ b.rank))

instance : IsTotal FileSizeScale fsLE :=
  ⟨fun a b => Nat.le_total a.rank b.rank⟩

instance : IsTrans FileSizeScale fsLE :=
  ⟨fun _ _ _ h1 h2 => Nat.le_trans h1 h2⟩

instance : IsAntisymm FileSizeScale fsLE :=
  ⟨by decide⟩

/-- `array.sort((a, b) => b - a)`: sort a selection in descending numeric
order of the scale values. -/
def sortDesc (l : List FileSizeScale) : List FileSizeScale :=
  List.insertionSort fsLE l

/-- The initial `selectedFileSizeScales` state:
`[1 / Math.sqrt(2), 1 / 2, 1 / Math.sqrt(8)]`. -/
def initialFileSizeScales : List FileSizeScale :=
  [.half, .quarter, .eighth]

/-- `handleFileSizeToggle`: remove the scale if present, otherwise append it
and re-sort in descending order. -/
def handleFileSizeToggle (scale : FileSizeScale) (prev : List FileSizeScale) :
    List FileSizeScale :=
  if scale ∈ prev then prev.filter (fun s => s != scale)
  else sortDesc (prev ++ [scale])

/-- Fold a sequence of toggle clicks over the initial selection state. -/
def applyToggles (ts : List FileSizeScale) : List FileSizeScale :=
  ts.foldl (fun l t => handleFileSizeToggle t l) initialFileSizeScales

/-- Length of the padded base64 rendering of an `n`-byte binary payload,
as produced inside a `canvas.toDataURL` data URL. -/
def b64EncLen (n : ℕ) : ℕ := 4 * ((n + 2) / 3)

/-- `Math.round((base64.length * 3) / 4)`: the page's byte-size estimate from
the base64 payload length `L` (exact rational arithmetic; `Math.round` is
`⌊x + 1/2⌋` on these nonnegative values). -/
def jsFileSizeOfB64Len (L : ℕ) : ℕ := (3 * L + 2) / 4

/-- Model of the platform encoder behind `canvas.toDataURL`: the byte count of
the binary payload it produces for given canvas dimensions, MIME type and
quality argument. -/
structure Encoder where
  payloadBytes : ℤ → ℤ → String → Option ℚ → ℕ

/-- The record resolved by the `resizeImage` promise; the data URL is kept as
its MIME type, quality argument and base64 payload length. -/
structure ResizeResult where
  dataUrlMime : String
  dataUrlQuality : Option ℚ
  dataUrlB64Len : ℕ
  width : ℤ
  height : ℤ
  fileSize : ℕ
  deriving DecidableEq

/-- `resizeImage(img, scale, originalType)` from src/unnamed/part_000 lines
53-84 (identical in src/src/app/page.tsx lines 32-63). -/
noncomputable def resizeImage (enc : Encoder) (imgWidth imgHeight : ℕ)
    (scale : ℝ) (originalType : String) : ResizeResult :=
  let newWidth : ℤ := round ((imgWidth : ℝ) * scale)
  let newHeight : ℤ := round ((imgHeight : ℝ) * scale)
  let mimeType : String :=
    if originalType = "image/png" then "image/png" else "image/jpeg"
  let quality : Option ℚ :=
    if mimeType = "image/jpeg" then some 0.92 else none
  let b64Len : ℕ := b64EncLen (enc.payloadBytes newWidth newHeight mimeType quality)
  { dataUrlMime := mimeType
    dataUrlQuality := quality
    dataUrlB64Len := b64Len
    width := newWidth
    height := newHeight
    fileSize := jsFileSizeOfB64Len b64Len }

/-- The byte count of the binary payload encoded for a given `resizeImage`
call (what decoding the base64 part of its data URL yields). -/
noncomputable def payloadOf (enc : Encoder) (imgWidth imgHeight : ℕ)
    (scale : ℝ) (originalType : String) : ℕ :=
  enc.payloadBytes (round ((imgWidth : ℝ) * scale)) (round ((imgHeight : ℝ) * scale))
    (if originalType = "image/png" then "image/png" else "image/jpeg")
    (if (if originalType = "image/png" then "image/png" else "image/jpeg") = "image/jpeg"
      then some 0.92 else none)

/-- The `originalInfo` state record. -/
structure OriginalInfo where
  name : String
  width : ℕ
  height : ℕ
  fileSize : ℕ
  type : String
  deriving DecidableEq

/-- The `loadedImage` state (the decoded `HTMLImageElement`, of which only the
native dimensions are read). -/
structure LoadedImage where
  width : ℕ
  height : ℕ
  deriving DecidableEq

/-- A `ResizedImage` entry of the `resizedImages` state. -/
structure ResizedImage where
  id : String
  label : String
  dataUrlMime : String
  dataUrlQuality : Option ℚ
  dataUrlB64Len : ℕ
  width : ℤ
  height : ℤ
  fileSize : ℕ
  deriving DecidableEq

/-- The React state of the page component. -/
structure AppState where
  originalImage : Option String
  originalInfo : Option OriginalInfo
  resizedImages : List ResizedImage
  isProcessing : Bool
  selectedWidthScale : WidthScale
  selectedFileSizeScales : List FileSizeScale
  loadedImage : Option LoadedImage
  deriving DecidableEq

/-- One iteration of the `handleConvert` loop: combined scale, `resizeImage`
call, and the pushed `ResizedImage` record (the `find` calls on the two option
tables always succeed, the selections being option values). -/
noncomputable def mkResized (enc : Encoder) (w : WidthScale) (f : FileSizeScale)
    (img : LoadedImage) (originalType : String) : ResizedImage :=
  let combinedScale : ℝ := w.value * f.value
  let r := resizeImage enc img.width img.height combinedScale originalType
  { id := w.label ++ "-" ++ f.ratioTag
    label := "横" ++ w.label ++ " × ファイル" ++ f.label
    dataUrlMime := r.dataUrlMime
    dataUrlQuality := r.dataUrlQuality
    dataUrlB64Len := r.dataUrlB64Len
    width := r.width
    height := r.height
    fileSize := r.fileSize }

/-- `handleConvert` as a state transition: early return unless an image is
loaded, its info recorded and the selection nonempty; otherwise one variant
per selected factor, in descending order of the factors (`.sort((a,b)=>b-a)`
also sorts the state array in place). -/
noncomputable def handleConvert (enc : Encoder) (st : AppState) : AppState :=
  match st.loadedImage, st.originalInfo with
  | some img, some info =>
    if st.selectedFileSizeScales = [] then st
    else
      let sorted := sortDesc st.selectedFileSizeScales
      let results := sorted.map (fun f => mkResized enc st.selectedWidthScale f img info.type)
      { st with resizedImages := results
                isProcessing := false
                selectedFileSizeScales := sorted }
  | _, _ => st

/-- The combined scales at which `handleConvert` invokes `resizeImage`
(empty when the early-return guard fires). -/
noncomputable def handleConvertResampleCalls (st : AppState) : List ℝ :=
  match st.loadedImage, st.originalInfo with
  | some _, some _ =>
    if st.selectedFileSizeScales = [] then []
    else (sortDesc st.selectedFileSizeScales).map
      (fun f => st.selectedWidthScale.value * f.value)
  | _, _ => []

/-- The file selected through the file input, together with the outcome of
decoding it (the FileReader/Image callbacks always complete here). -/
structure IncomingFile where
  name : String
  type : String
  size : ℕ
  dataUrl : String
  decodedWidth : ℕ
  decodedHeight : ℕ

/-- Result of `handleFileChange`: the state after all callbacks have run, and
whether the non-image rejection alert fired. -/
structure FileChangeOutcome where
  state : AppState
  alerted : Bool
  deriving DecidableEq

/-- `file.type.startsWith("image/")`: character-level prefix test, stated
over the underlying character lists. -/
def typeIsImage (t : String) : Bool := "image/".data.isPrefixOf t.data

/-- `handleFileChange`: reject non-`image/` MIME types with an alert and no
state change; otherwise clear the variants, store the data URL, and record
the decoded image's info once its `onload` fires. -/
def handleFileChange (file : IncomingFile) (st : AppState) : FileChangeOutcome :=
  if !(typeIsImage file.type) then { state := st, alerted := true }
  else
    { state :=
        { st with
          resizedImages := []
          originalImage := some file.dataUrl
          originalInfo := some
            { name := file.name
              width := file.decodedWidth
              height := file.decodedHeight
              fileSize := file.size
              type := file.type }
          loadedImage := some { width := file.decodedWidth, height := file.decodedHeight } }
      alerted := false }

/-- `name.replace(/\.[^/.]+$/, "")`: strip a final extension (a dot followed
by one or more characters none of which is a dot or a slash, at the end). -/
def stripExt (s : String) : String :=
  let rev := s.data.reverse
  let ext := rev.takeWhile (fun c => c != '.' && c != '/')
  match rev.drop ext.length with
  | '.' :: rest => if ext.isEmpty then s else String.mk rest.reverse
  | _ => s

/-- The filename built by `handleDownload` for a variant id. -/
def handleDownloadName (info : OriginalInfo) (id : String) : String :=
  let extension := if info.type = "image/png" then "png" else "jpg"
  let baseName := stripExt info.name
  baseName ++ "_" ++ id ++ "." ++ extension


/-! ### Concrete fixtures for witnesses and counterexamples -/

/-- An encoder whose binary payload is always 100 bytes (not divisible by 3). -/
def exEncoder : Encoder := ⟨fun _ _ _ _ => 100⟩

/-- An encoder whose binary payload is always 9 bytes (divisible by 3). -/
def exEncoder9 : Encoder := ⟨fun _ _ _ _ => 9⟩

/-- Info of a 1000×800 PNG called photo.png. -/
def exInfoPng : OriginalInfo :=
  { name := "photo.png", width := 1000, height := 800, fileSize := 5000, type := "image/png" }

/-- A state with photo.png loaded and a given file-size selection. -/
def exState (sel : List FileSizeScale) : AppState :=
  { originalImage := some "data:image/png;base64,AAAA"
    originalInfo := some exInfoPng
    resizedImages := []
    isProcessing := false
    selectedWidthScale := .w100
    selectedFileSizeScales := sel
    loadedImage := some { width := 1000, height := 800 } }

/-- The state with only the 1/2 file-size option selected. -/
def exStatePng : AppState := exState [.half]

/-! ### Numeric facts about the option values -/

lemma sqrt2_pos : (0 : ℝ) < Real.sqrt 2 := Real.sqrt_pos.mpr (by norm_num)

lemma sqrt8_pos : (0 : ℝ) < Real.sqrt 8 := Real.sqrt_pos.mpr (by norm_num)

lemma sqrt2_lb : (1.414 : ℝ) < Real.sqrt 2 := by
  nlinarith [Real.sq_sqrt (show (0:ℝ) ≤ 2 by norm_num), Real.sqrt_nonneg 2]

lemma sqrt2_ub : Real.sqrt 2 < 1.41422 := by
  nlinarith [Real.sq_sqrt (show (0:ℝ) ≤ 2 by norm_num), Real.sqrt_nonneg 2]

lemma sqrt8_lb : (2.8284 : ℝ) < Real.sqrt 8 := by
  nlinarith [Real.sq_sqrt (show (0:ℝ) ≤ 8 by norm_num), Real.sqrt_nonneg 8]

lemma sqrt8_ub : Real.sqrt 8 < 2.82843 := by
  nlinarith [Real.sq_sqrt (show (0:ℝ) ≤ 8 by norm_num), Real.sqrt_nonneg 8]

lemma FileSizeScale.value_pos : ∀ f : FileSizeScale, 0 < f.value := by
  intro f
  cases f <;> simp only [value] <;> positivity

lemma FileSizeScale.value_le_one : ∀ f : FileSizeScale, f.value ≤ 1 := by
  intro f
  cases f <;> simp only [value]
  · rw [div_le_one sqrt2_pos]; linarith [sqrt2_lb]
  · norm_num
  · rw [div_le_one sqrt8_pos]; linarith [sqrt8_lb]

lemma FileSizeScale.lb_value : ∀ f : FileSizeScale, (0.35 : ℝ) ≤ f.value := by
  intro f
  cases f <;> simp only [value]
  · rw [le_div_iff₀ sqrt2_pos]; nlinarith [sqrt2_ub]
  · norm_num
  · rw [le_div_iff₀ sqrt8_pos]; nlinarith [sqrt8_ub]

lemma FileSizeScale.value_lt_value :
    ∀ a b : FileSizeScale, a.rank < b.rank → b.value < a.value := by
  intro a b h
  cases a <;> cases b <;> simp only [rank] at h <;> try omega
  all_goals simp only [value]
  · rw [div_lt_div_iff₀ (by norm_num) sqrt2_pos]
    linarith [sqrt2_ub]
  · rw [div_lt_div_iff₀ sqrt8_pos sqrt2_pos]
    linarith [sqrt2_ub, sqrt8_lb]
  · rw [div_lt_div_iff₀ sqrt8_pos (by norm_num : (0:ℝ) < 2)]
    linarith [sqrt8_lb]

lemma FileSizeScale.rank_inj : ∀ a b : FileSizeScale, a.rank = b.rank → a = b := by
  decide

lemma WidthScale.pos_value : ∀ w : WidthScale, 0 < w.value := by
  intro w
  cases w <;> simp only [value] <;> norm_num

lemma WidthScale.le_one_value : ∀ w : WidthScale, w.value ≤ 1 := by
  intro w
  cases w <;> simp only [value] <;> norm_num

lemma WidthScale.half_le_value : ∀ w : WidthScale, (0.5 : ℝ) ≤ w.value := by
  intro w
  cases w <;> simp only [value] <;> norm_num

/-! ### Rounding -/

lemma round_eq_of_bounds (x : ℝ) (n : ℤ) (h1 : (n : ℝ) - 1/2 ≤ x)
    (h2 : x < (n : ℝ) + 1/2) : round x = n := by
  rw [round_eq, Int.floor_eq_iff]
  constructor <;> push_cast <;> linarith

lemma one_le_round (x : ℝ) (h : 1/2 ≤ x) : 1 ≤ round x := by
  rw [round_eq, Int.le_floor]
  norm_num
  linarith

/-! ### The descending sort on selections -/

lemma sortDesc_sorted (l : List FileSizeScale) : (sortDesc l).Sorted fsLE :=
  List.sorted_insertionSort fsLE l

lemma sortDesc_perm (l : List FileSizeScale) : List.Perm (sortDesc l) l :=
  List.perm_insertionSort fsLE l

lemma sortDesc_nodup {l : List FileSizeScale} (h : l.Nodup) : (sortDesc l).Nodup :=
  ((sortDesc_perm l).nodup_iff).mpr h

lemma sortDesc_length (l : List FileSizeScale) : (sortDesc l).length = l.length :=
  (sortDesc_perm l).length_eq

lemma sortDesc_congr {l m : List FileSizeScale} (hl : l.Nodup) (hm : m.Nodup)
    (h : ∀ x, x ∈ l ↔ x ∈ m) : sortDesc l = sortDesc m := by
  refine List.eq_of_perm_of_sorted ?_ (sortDesc_sorted l) (sortDesc_sorted m)
  exact ((sortDesc_perm l).trans
    ((List.perm_ext_iff_of_nodup hl hm).mpr h)).trans (sortDesc_perm m).symm

lemma pairwise_value_lt {l : List FileSizeScale} (hs : l.Sorted fsLE) (hn : l.Nodup) :
    l.Pairwise (fun a b => b.value < a.value) := by
  refine (List.Pairwise.and hs hn).imp ?_
  rintro a b ⟨hle, hne⟩
  exact FileSizeScale.value_lt_value a b
    (lt_of_le_of_ne hle (fun hr => hne (FileSizeScale.rank_inj a b hr)))

/-! ### The toggle invariant -/

lemma toggle_sorted_nodup (t : FileSizeScale) {l : List FileSizeScale}
    (h1 : l.Sorted fsLE) (h2 : l.Nodup) :
    (handleFileSizeToggle t l).Sorted fsLE ∧ (handleFileSizeToggle t l).Nodup := by
  unfold handleFileSizeToggle
  by_cases ht : t ∈ l
  · rw [if_pos ht]
    exact ⟨h1.filter _, h2.filter _⟩
  · rw [if_neg ht]
    refine ⟨sortDesc_sorted _, sortDesc_nodup ?_⟩
    simp [List.nodup_append, h2, ht]

lemma toggle_toggle (t : FileSizeScale) {l : List FileSizeScale}
    (h1 : l.Sorted fsLE) (h2 : l.Nodup) :
    handleFileSizeToggle t (handleFileSizeToggle t l) = l := by
  by_cases ht : t ∈ l
  · have hfirst : handleFileSizeToggle t l = l.filter (fun s => s != t) := by
      unfold handleFileSizeToggle
      rw [if_pos ht]
    have hnotin : t ∉ l.filter (fun s => s != t) := by
      simp
    rw [hfirst]
    unfold handleFileSizeToggle
    rw [if_neg hnotin]
    refine List.eq_of_perm_of_sorted ?_ (sortDesc_sorted _) h1
    have e1 : l.filter (fun s => s != t) = l.erase t :=
      (List.Nodup.erase_eq_filter h2 t).symm
    refine (sortDesc_perm _).trans ?_
    rw [e1]
    exact (List.perm_append_singleton t _).trans (List.perm_cons_erase ht).symm
  · have hfirst : handleFileSizeToggle t l = sortDesc (l ++ [t]) := by
      unfold handleFileSizeToggle
      rw [if_neg ht]
    have hmem : t ∈ sortDesc (l ++ [t]) := by
      rw [(sortDesc_perm _).mem_iff]
      simp
    have hnd : (sortDesc (l ++ [t])).Nodup := by
      refine sortDesc_nodup ?_
      simp [List.nodup_append, h2, ht]
    rw [hfirst]
    unfold handleFileSizeToggle
    rw [if_pos hmem]
    refine List.eq_of_perm_of_sorted ?_ ((sortDesc_sorted _).filter _) h1
    have e2 : (sortDesc (l ++ [t])).filter (fun s => s != t)
        = (sortDesc (l ++ [t])).erase t := (List.Nodup.erase_eq_filter hnd t).symm
    rw [e2]
    have hp := List.Perm.erase t
      ((sortDesc_perm (l ++ [t])).trans (List.perm_append_singleton t l))
    rw [List.erase_cons_head] at hp
    exact hp

lemma applyToggles_sorted_nodup (ts : List FileSizeScale) :
    (applyToggles ts).Sorted fsLE ∧ (applyToggles ts).Nodup := by
  have general : ∀ (ts : List FileSizeScale) (l : List FileSizeScale),
      l.Sorted fsLE → l.Nodup →
      (ts.foldl (fun l t => handleFileSizeToggle t l) l).Sorted fsLE ∧
      (ts.foldl (fun l t => handleFileSizeToggle t l) l).Nodup := by
    intro ts
    induction ts with
    | nil => exact fun l h1 h2 => ⟨h1, h2⟩
    | cons t ts ih =>
      intro l h1 h2
      obtain ⟨g1, g2⟩ := toggle_sorted_nodup t h1 h2
      exact ih _ g1 g2
  exact general ts initialFileSizeScales (by decide) (by decide)

/-! ### Dimension computations -/

lemma resizeImage_width (enc : Encoder) (imgWidth imgHeight : ℕ) (scale : ℝ)
    (t : String) :
    (resizeImage enc imgWidth imgHeight scale t).width
      = round ((imgWidth : ℝ) * scale) := rfl

lemma resizeImage_height (enc : Encoder) (imgWidth imgHeight : ℕ) (scale : ℝ)
    (t : String) :
    (resizeImage enc imgWidth imgHeight scale t).height
      = round ((imgHeight : ℝ) * scale) := rfl

lemma round_mul_inv (d : ℕ) (s : ℝ) (n : ℤ) (hs : 0 < s)
    (h1 : ((n : ℝ) - 1/2) * s ≤ d) (h2 : (d : ℝ) < ((n : ℝ) + 1/2) * s) :
    round ((d : ℝ) * (1.0 * (1 / s))) = n := by
  apply round_eq_of_bounds
  · rw [show (d : ℝ) * (1.0 * (1 / s)) = d / s by ring, le_div_iff₀ hs]
    exact h1
  · rw [show (d : ℝ) * (1.0 * (1 / s)) = d / s by ring, div_lt_iff₀ hs]
    exact h2

/-- Claim C3: for a 1000×800 source at width-scale 1.0, file-size-scale 1/√2
gives 707×566, 1/2 gives exactly 500×400, and 1/√8 gives 354×283. -/
theorem claim_C3 (enc : Encoder) (t : String) :
    ((resizeImage enc 1000 800 (WidthScale.w100.value * FileSizeScale.half.value) t).width = 707
      ∧ (resizeImage enc 1000 800 (WidthScale.w100.value * FileSizeScale.half.value) t).height = 566)
    ∧ ((resizeImage enc 1000 800 (WidthScale.w100.value * FileSizeScale.quarter.value) t).width = 500
      ∧ (resizeImage enc 1000 800 (WidthScale.w100.value * FileSizeScale.quarter.value) t).height = 400)
    ∧ ((resizeImage enc 1000 800 (WidthScale.w100.value * FileSizeScale.eighth.value) t).width = 354
      ∧ (resizeImage enc 1000 800 (WidthScale.w100.value * FileSizeScale.eighth.value) t).height = 283) := by
  simp only [resizeImage_width, resizeImage_height, WidthScale.value, FileSizeScale.value]
  refine ⟨⟨?_, ?_⟩, ⟨?_, ?_⟩, ⟨?_, ?_⟩⟩
  · exact round_mul_inv 1000 _ 707 sqrt2_pos (by nlinarith [sqrt2_ub]) (by nlinarith [sqrt2_lb])
  · exact round_mul_inv 800 _ 566 sqrt2_pos (by nlinarith [sqrt2_ub]) (by nlinarith [sqrt2_lb])
  · exact round_mul_inv 1000 _ 500 (by norm_num) (by norm_num) (by norm_num)
  · exact round_mul_inv 800 _ 400 (by norm_num) (by norm_num) (by norm_num)
  · exact round_mul_inv 1000 _ 354 sqrt8_pos (by nlinarith [sqrt8_ub]) (by nlinarith [sqrt8_lb])
  · exact round_mul_inv 800 _ 283 sqrt8_pos (by nlinarith [sqrt8_ub]) (by nlinarith [sqrt8_lb])

/-- Claim C8: every reachable combined scale w×f lies in (0, 1], and for
native dimensions of at least 3 pixels both rounded output dimensions are at
least 1 pixel. -/
theorem claim_C8 (enc : Encoder) (t : String) (w : WidthScale) (f : FileSizeScale)
    (native_w native_h : ℕ) (hW : 3 ≤ native_w) (hH : 3 ≤ native_h) :
    (0 < w.value * f.value ∧ w.value * f.value ≤ 1)
    ∧ 1 ≤ (resizeImage enc native_w native_h (w.value * f.value) t).width
    ∧ 1 ≤ (resizeImage enc native_w native_h (w.value * f.value) t).height := by
  have hwp := WidthScale.pos_value w
  have hw1 := WidthScale.le_one_value w
  have hwh := WidthScale.half_le_value w
  have hfp := FileSizeScale.value_pos f
  have hf1 := FileSizeScale.value_le_one f
  have hfl := FileSizeScale.lb_value f
  have hc : (0.175 : ℝ) ≤ w.value * f.value := by nlinarith
  have dim_ge : ∀ d : ℕ, 3 ≤ d → 1 ≤ round ((d : ℝ) * (w.value * f.value)) := by
    intro d hd
    have hd3 : (3 : ℝ) ≤ (d : ℝ) := by exact_mod_cast hd
    apply one_le_round
    nlinarith
  exact ⟨⟨mul_pos hwp hfp, by nlinarith⟩,
    by rw [resizeImage_width]; exact dim_ge native_w hW,
    by rw [resizeImage_height]; exact dim_ge native_h hH⟩

/-- Witness for C8 at width-scale 50%, file-size-scale 1/8, a 3×3 source. -/
theorem claim_C8_witness :
    (3 ≤ 3 ∧ 3 ≤ 3)
    ∧ ((0 < WidthScale.w50.value * FileSizeScale.eighth.value
          ∧ WidthScale.w50.value * FileSizeScale.eighth.value ≤ 1)
        ∧ 1 ≤ (resizeImage exEncoder 3 3
            (WidthScale.w50.value * FileSizeScale.eighth.value) "image/png").width
        ∧ 1 ≤ (resizeImage exEncoder 3 3
            (WidthScale.w50.value * FileSizeScale.eighth.value) "image/png").height) :=
  ⟨⟨by decide, by decide⟩,
    claim_C8 exEncoder "image/png" .w50 .eighth 3 3 (by decide) (by decide)⟩

/-- Claim C10: from the initial selection, any sequence of toggle clicks
leaves the selected list strictly descending in scale value, duplicate-free
and within the three options, and toggling a factor twice restores the list. -/
theorem claim_C10 (ts : List FileSizeScale) :
    (applyToggles ts).Pairwise (fun a b => b.value < a.value)
    ∧ (applyToggles ts).Nodup
    ∧ (∀ x ∈ applyToggles ts, x ∈ FILE_SIZE_OPTIONS)
    ∧ ∀ t, handleFileSizeToggle t (handleFileSizeToggle t (applyToggles ts))
        = applyToggles ts := by
  obtain ⟨hs, hn⟩ := applyToggles_sorted_nodup ts
  refine ⟨pairwise_value_lt hs hn, hn, ?_, fun t => toggle_toggle t hs hn⟩
  intro x _
  cases x <;> simp [FILE_SIZE_OPTIONS]

/-- Claim C1: every selected file-size-scale f, combined with the selected
width-scale w, yields a resample call at combined scale w×f and a variant
whose output width and height are round(native × (w×f)), rounded
independently per axis. -/
theorem claim_C1 (enc : Encoder) (st : AppState) (img : LoadedImage)
    (info : OriginalInfo) (himg : st.loadedImage = some img)
    (hinfo : st.originalInfo = some info) (f : FileSizeScale)
    (hf : f ∈ st.selectedFileSizeScales) :
    (st.selectedWidthScale.value * f.value) ∈ handleConvertResampleCalls st
    ∧ ∃ v ∈ (handleConvert enc st).resizedImages,
        v.width = round ((img.width : ℝ) * (st.selectedWidthScale.value * f.value))
        ∧ v.height = round ((img.height : ℝ) * (st.selectedWidthScale.value * f.value)) := by
  have hne : st.selectedFileSizeScales ≠ [] := List.ne_nil_of_mem hf
  have hf2 : f ∈ sortDesc st.selectedFileSizeScales :=
    ((sortDesc_perm _).mem_iff).mpr hf
  constructor
  · simp only [handleConvertResampleCalls, himg, hinfo]
    rw [if_neg hne]
    exact List.mem_map_of_mem _ hf2
  · refine ⟨mkResized enc st.selectedWidthScale f img info.type, ?_, rfl, rfl⟩
    simp only [handleConvert, himg, hinfo]
    rw [if_neg hne]
    exact List.mem_map_of_mem _ hf2

/-- Witness for C1 at the concrete photo.png state with the 1/2 option. -/
theorem claim_C1_witness :
    exStatePng.loadedImage = some { width := 1000, height := 800 }
    ∧ exStatePng.originalInfo = some exInfoPng
    ∧ FileSizeScale.half ∈ exStatePng.selectedFileSizeScales
    ∧ ((exStatePng.selectedWidthScale.value * FileSizeScale.half.value)
          ∈ handleConvertResampleCalls exStatePng
        ∧ ∃ v ∈ (handleConvert exEncoder exStatePng).resizedImages,
            v.width = round ((1000 : ℝ)
              * (exStatePng.selectedWidthScale.value * FileSizeScale.half.value))
            ∧ v.height = round ((800 : ℝ)
              * (exStatePng.selectedWidthScale.value * FileSizeScale.half.value))) :=
  ⟨rfl, rfl, by decide,
    claim_C1 exEncoder exStatePng { width := 1000, height := 800 } exInfoPng
      rfl rfl .half (by decide)⟩

/-- Claim C4: a generated variant is re-encoded as lossless image/png with no
quality argument when the declared type is image/png, and as lossy image/jpeg
at quality 0.92 otherwise. -/
theorem claim_C4 (enc : Encoder) (st : AppState) (img : LoadedImage)
    (info : OriginalInfo) (himg : st.loadedImage = some img)
    (hinfo : st.originalInfo = some info)
    (hne : st.selectedFileSizeScales ≠ []) :
    ∀ v ∈ (handleConvert enc st).resizedImages,
      (info.type = "image/png" →
        v.dataUrlMime = "image/png" ∧ v.dataUrlQuality = none)
      ∧ (info.type ≠ "image/png" →
        v.dataUrlMime = "image/jpeg" ∧ v.dataUrlQuality = some 0.92) := by
  intro v hv
  simp only [handleConvert, himg, hinfo] at hv
  rw [if_neg hne] at hv
  obtain ⟨f, _, rfl⟩ := List.mem_map.mp hv
  have hstr : ("image/png" : String) ≠ "image/jpeg" := by decide
  constructor
  · intro hpng
    constructor <;> simp [mkResized, resizeImage, hpng, hstr]
  · intro hnot
    constructor <;> simp [mkResized, resizeImage, hnot]

/-- Witness for C4 at the concrete photo.png state. -/
theorem claim_C4_witness :
    exStatePng.loadedImage = some { width := 1000, height := 800 }
    ∧ exStatePng.originalInfo = some exInfoPng
    ∧ exStatePng.selectedFileSizeScales ≠ []
    ∧ ∀ v ∈ (handleConvert exEncoder exStatePng).resizedImages,
        (exInfoPng.type = "image/png" →
          v.dataUrlMime = "image/png" ∧ v.dataUrlQuality = none)
        ∧ (exInfoPng.type ≠ "image/png" →
          v.dataUrlMime = "image/jpeg" ∧ v.dataUrlQuality = some 0.92) :=
  ⟨rfl, rfl, by decide,
    claim_C4 exEncoder exStatePng { width := 1000, height := 800 } exInfoPng
      rfl rfl (by decide)⟩

/-- Claim C5: with a nonempty duplicate-free selection, generation emits one
variant per selected factor, in strictly descending order of the file-size
scales, and the output depends only on the selection as a set (plus the other
inputs), not on the order the factors were toggled in. -/
theorem claim_C5 (enc : Encoder) (st st2 : AppState) (img : LoadedImage)
    (info : OriginalInfo) (himg : st.loadedImage = some img)
    (hinfo : st.originalInfo = some info)
    (hne : st.selectedFileSizeScales ≠ [])
    (hnd : st.selectedFileSizeScales.Nodup)
    (hnd2 : st2.selectedFileSizeScales.Nodup)
    (hmem : ∀ f, f ∈ st2.selectedFileSizeScales ↔ f ∈ st.selectedFileSizeScales)
    (himg2 : st2.loadedImage = st.loadedImage)
    (hinfo2 : st2.originalInfo = st.originalInfo)
    (hw2 : st2.selectedWidthScale = st.selectedWidthScale) :
    (handleConvert enc st).resizedImages
      = (sortDesc st.selectedFileSizeScales).map
          (fun f => mkResized enc st.selectedWidthScale f img info.type)
    ∧ (handleConvert enc st).resizedImages.length
      = st.selectedFileSizeScales.length
    ∧ (sortDesc st.selectedFileSizeScales).Pairwise (fun a b => b.value < a.value)
    ∧ (handleConvert enc st2).resizedImages = (handleConvert enc st).resizedImages := by
  have hne2 : st2.selectedFileSizeScales ≠ [] := by
    obtain ⟨x, hx⟩ := List.exists_mem_of_ne_nil _ hne
    exact List.ne_nil_of_mem ((hmem x).mpr hx)
  have h1 : (handleConvert enc st).resizedImages
      = (sortDesc st.selectedFileSizeScales).map
          (fun f => mkResized enc st.selectedWidthScale f img info.type) := by
    simp only [handleConvert, himg, hinfo]
    rw [if_neg hne]
  have h2 : (handleConvert enc st2).resizedImages
      = (sortDesc st2.selectedFileSizeScales).map
          (fun f => mkResized enc st2.selectedWidthScale f img info.type) := by
    simp only [handleConvert, himg2.trans himg, hinfo2.trans hinfo]
    rw [if_neg hne2]
  refine ⟨h1, ?_, pairwise_value_lt (sortDesc_sorted _) (sortDesc_nodup hnd), ?_⟩
  · rw [h1, List.length_map, sortDesc_length]
  · rw [h1, h2, sortDesc_congr hnd2 hnd hmem, hw2]

/-- Witness for C5: the sets {1/2, 1/4} toggled in either order give the same
output list. -/
theorem claim_C5_witness :
    ((exState [.half, .quarter]).loadedImage = some { width := 1000, height := 800 }
      ∧ (exState [.half, .quarter]).originalInfo = some exInfoPng
      ∧ (exState [.half, .quarter]).selectedFileSizeScales ≠ []
      ∧ (exState [.half, .quarter]).selectedFileSizeScales.Nodup
      ∧ (exState [.quarter, .half]).selectedFileSizeScales.Nodup
      ∧ (∀ f, f ∈ (exState [.quarter, .half]).selectedFileSizeScales
          ↔ f ∈ (exState [.half, .quarter]).selectedFileSizeScales))
    ∧ ((handleConvert exEncoder (exState [.half, .quarter])).resizedImages
        = (sortDesc (exState [.half, .quarter]).selectedFileSizeScales).map
            (fun f => mkResized exEncoder
              (exState [.half, .quarter]).selectedWidthScale f
              { width := 1000, height := 800 } exInfoPng.type)
      ∧ (handleConvert exEncoder (exState [.half, .quarter])).resizedImages.length
        = (exState [.half, .quarter]).selectedFileSizeScales.length
      ∧ (sortDesc (exState [.half, .quarter]).selectedFileSizeScales).Pairwise
          (fun a b => b.value < a.value)
      ∧ (handleConvert exEncoder (exState [.quarter, .half])).resizedImages
        = (handleConvert exEncoder (exState [.half, .quarter])).resizedImages) :=
  ⟨⟨rfl, rfl, by decide, by decide, by decide, by decide⟩,
    claim_C5 exEncoder (exState [.half, .quarter]) (exState [.quarter, .half])
      { width := 1000, height := 800 } exInfoPng rfl rfl (by decide) (by decide)
      (by decide) (by decide) rfl rfl rfl⟩

/-- Claim C6: with an empty file-size selection, invoking generation is a
no-op: the state (variant list included) is unchanged and no resample call
is made. -/
theorem claim_C6 (enc : Encoder) (st : AppState)
    (h : st.selectedFileSizeScales = []) :
    handleConvert enc st = st ∧ handleConvertResampleCalls st = [] := by
  constructor
  · unfold handleConvert
    cases hli : st.loadedImage <;> cases hoi : st.originalInfo <;> simp [h]
  · unfold handleConvertResampleCalls
    cases hli : st.loadedImage <;> cases hoi : st.originalInfo <;> simp [h]

/-- Witness for C6 at the concrete photo.png state with nothing selected. -/
theorem claim_C6_witness :
    (exState []).selectedFileSizeScales = []
    ∧ (handleConvert exEncoder (exState []) = exState []
      ∧ handleConvertResampleCalls (exState []) = []) :=
  ⟨rfl, claim_C6 exEncoder (exState []) rfl⟩

/-- Claim C7: a file whose declared MIME type does not start with image/ is
rejected with the alert, leaving the whole state untouched. -/
theorem claim_C7 (file : IncomingFile) (st : AppState)
    (h : typeIsImage file.type = false) :
    handleFileChange file st = { state := st, alerted := true } := by
  simp [handleFileChange, h]

/-- Witness for C7: a text/plain file is rejected without a state change. -/
theorem claim_C7_witness :
    typeIsImage "text/plain" = false
    ∧ handleFileChange
        { name := "note.txt", type := "text/plain", size := 10,
          dataUrl := "data:text/plain;base64,AAAA", decodedWidth := 0,
          decodedHeight := 0 } (exState [.half])
      = { state := exState [.half], alerted := true } :=
  ⟨by decide,
    claim_C7
      { name := "note.txt", type := "text/plain", size := 10,
        dataUrl := "data:text/plain;base64,AAAA", decodedWidth := 0,
        decodedHeight := 0 } (exState [.half]) (by decide)⟩

/-- Counterexample to C2: with an encoder producing a 100-byte binary payload
(so a padded base64 part of length 136), the stored estimate is
round(136·3/4) = 102 ≠ 100, because the estimate counts the base64 padding
rather than the exact decoded byte count. -/
theorem claim_C2_counterexample :
    payloadOf exEncoder 1000 800 ((1 : ℝ)/2) "image/jpeg" = 100
    ∧ (resizeImage exEncoder 1000 800 ((1 : ℝ)/2) "image/jpeg").dataUrlB64Len = 136
    ∧ (resizeImage exEncoder 1000 800 ((1 : ℝ)/2) "image/jpeg").fileSize = 102
    ∧ (102 : ℕ) ≠ 100 :=
  ⟨rfl, rfl, rfl, by decide⟩

/-- Amended C2: the estimated byte size is the payload's decoded byte count
rounded up to the next multiple of 3 (so exact precisely when that count is
divisible by 3), and is a deterministic function of that count. -/
theorem claim_C2_amended (enc : Encoder) (imgWidth imgHeight : ℕ) (scale : ℝ)
    (originalType : String) :
    (resizeImage enc imgWidth imgHeight scale originalType).fileSize
      = 3 * ((payloadOf enc imgWidth imgHeight scale originalType + 2) / 3)
    ∧ (payloadOf enc imgWidth imgHeight scale originalType % 3 = 0 →
        (resizeImage enc imgWidth imgHeight scale originalType).fileSize
          = payloadOf enc imgWidth imgHeight scale originalType) := by
  have key : ∀ n : ℕ, jsFileSizeOfB64Len (b64EncLen n) = 3 * ((n + 2) / 3) := by
    intro n
    simp only [jsFileSizeOfB64Len, b64EncLen]
    omega
  have hfs : (resizeImage enc imgWidth imgHeight scale originalType).fileSize
      = jsFileSizeOfB64Len
          (b64EncLen (payloadOf enc imgWidth imgHeight scale originalType)) := rfl
  refine ⟨by rw [hfs, key], fun hmod => ?_⟩
  rw [hfs, key]
  omega

/-- Witness for amended C2 with a 9-byte payload (divisible by 3): the
estimate is exactly 9. -/
theorem claim_C2_amended_witness :
    payloadOf exEncoder9 1000 800 ((1 : ℝ)/2) "image/jpeg" % 3 = 0
    ∧ (resizeImage exEncoder9 1000 800 ((1 : ℝ)/2) "image/jpeg").fileSize
      = payloadOf exEncoder9 1000 800 ((1 : ℝ)/2) "image/jpeg" :=
  ⟨rfl, (claim_C2_amended exEncoder9 1000 800 ((1 : ℝ)/2) "image/jpeg").2 rfl⟩

/-- Counterexample to C9: for photo.png with width-scale 100% and file-size
option 1/2, the saved filename is built from the variant id "100%-1-2", not
from the variant label "横100% × ファイル1/2". -/
theorem claim_C9_counterexample :
    ((handleConvert exEncoder exStatePng).resizedImages.map
        (fun v => handleDownloadName exInfoPng v.id)) = ["photo_100%-1-2.png"]
    ∧ ((handleConvert exEncoder exStatePng).resizedImages.map (fun v => v.label))
        = ["横100% × ファイル1/2"]
    ∧ ("photo_100%-1-2.png" : String)
        ≠ stripExt "photo.png" ++ "_" ++ "横100% × ファイル1/2" ++ "." ++ "png" := by
  refine ⟨?_, ?_, by decide⟩
  · simp only [handleConvert, exStatePng, exState, exInfoPng]
    rw [if_neg (by decide : ([FileSizeScale.half] : List FileSizeScale) ≠ [])]
    decide
  · simp only [handleConvert, exStatePng, exState, exInfoPng]
    rw [if_neg (by decide : ([FileSizeScale.half] : List FileSizeScale) ≠ [])]
    decide

/-- Amended C9: the download filename is the original stem suffixed with an
underscore and the variant id (width-scale label, hyphen, file-size ratio
token), with extension png for image/png and jpg otherwise. -/
theorem claim_C9_amended (enc : Encoder) (st : AppState) (img : LoadedImage)
    (info : OriginalInfo) (himg : st.loadedImage = some img)
    (hinfo : st.originalInfo = some info)
    (hne : st.selectedFileSizeScales ≠ []) :
    (handleConvert enc st).resizedImages.map (fun v => handleDownloadName info v.id)
      = (sortDesc st.selectedFileSizeScales).map (fun f =>
          stripExt info.name ++ "_"
            ++ (st.selectedWidthScale.label ++ "-" ++ f.ratioTag)
            ++ "." ++ (if info.type = "image/png" then "png" else "jpg")) := by
  simp only [handleConvert, himg, hinfo]
  rw [if_neg hne]
  rw [List.map_map]
  rfl

/-- Witness for amended C9 at the concrete photo.png state. -/
theorem claim_C9_amended_witness :
    exStatePng.loadedImage = some { width := 1000, height := 800 }
    ∧ exStatePng.originalInfo = some exInfoPng
    ∧ exStatePng.selectedFileSizeScales ≠ []
    ∧ (handleConvert exEncoder exStatePng).resizedImages.map
        (fun v => handleDownloadName exInfoPng v.id)
      = (sortDesc exStatePng.selectedFileSizeScales).map (fun f =>
          stripExt exInfoPng.name ++ "_"
            ++ (exStatePng.selectedWidthScale.label ++ "-" ++ f.ratioTag)
            ++ "." ++ (if exInfoPng.type = "image/png" then "png" else "jpg")) :=
  ⟨rfl, rfl, by decide,
    claim_C9_amended exEncoder exStatePng { width := 1000, height := 800 }
      exInfoPng rfl rfl (by decide)⟩

end FileSizeDown
